import Mathlib

/-!
# Verification of `mlens/parallel/estimation.py`

Shallow embedding of the parallel layer-estimation engine of the `mlens`
repository (file `src/mlens/parallel/estimation.py`) together with proofs
about the behaviour claimed by its specification.

Modelling conventions, used uniformly below:

* A Python call that raises an exception is modelled by an `Except Err`
  value; the constructors of `Err` name the exception classes that the
  source raises (`FitFailedError`, `PredictFailedError`, `NotFittedError`,
  `ParallelProcessingError`) together with the builtin Python exceptions
  the source can produce (`AttributeError` from attribute access on
  `None`, `IndexError` from out-of-range fancy indexing, `KeyError` from
  a missing dict key, `ValueError` from a shape mismatch or failed tuple
  unpacking, `TypeError`, `FileNotFoundError` from `pickle_load` on a
  missing cache file).
* `warnings.warn(...)` calls are collected in a `List Warn` that each
  stage function returns next to its `Except` result.
* Data arrays are lists: a 2-D input `X` is a `List Int` of rows (the
  content of a row is irrelevant to every claim, only row identity and
  count matter, so a row is a single `Int`); `y` is a `List Int` of
  labels.  Prediction outputs are `Pred` (1-D vector or 2-D matrix, the
  two shapes `fit_est`/`predict_est` distinguish via `len(p.shape)`).
* A learnable instance is modelled by what its methods do: a flag saying
  whether `fit` (resp. `transform` / `predict`) raises, and the value the
  method returns when it does not raise.  `fit` returning the fitted
  object is modelled as returning the instance itself, as for sklearn
  style objects where `fit` returns `self`.
* Writes into the shared memory-mapped prediction matrix are recorded as
  an explicit list of `(row, column, value)` write operations; the row is
  an `Int` because the source computes it as `tei - rebase`, which Python
  would allow to go negative.
* Wall-clock time in the wait protocol `_load_trans` is discretised in
  units of one poll interval (`ival`): one loop iteration sleeps one unit.
  `lim` is the timeout measured in the same units: the source condition
  `time_() - ts > lim` becomes `t - ts > lim` on unit steps.
-/

namespace MLens

/-- Exceptions raised by the source code (mlens exception classes and the
Python builtins the code can hit). -/
inductive Err where
  | fitFailed
  | predictFailed
  | notFitted
  | parallelProcessing
  | attributeError
  | valueError
  | keyError
  | indexError
  | typeError
  | fileNotFound
  deriving DecidableEq, Repr

/-- Warning categories emitted via `warnings.warn` in the source. -/
inductive Warn where
  | fitFailedW
  | predictFailedW
  | parallelProcessingW
  deriving DecidableEq, Repr

/-- A fold index specification as supplied inside the task list: either a
single `(start, stop)` range or a sequence of ranges (the source
distinguishes the two by `isinstance(idx[0], tuple)`). -/
inductive IdxSpec where
  | range (a b : Nat)
  | ranges (rs : List (Nat × Nat))
  deriving DecidableEq, Repr

/-- Resolution of an index specification into a concrete list of row
indices, as in `_slice_array`: `np.arange(t0, t1)` for a single range and
`np.hstack([np.arange(t0, t1) for t0, t1 in idx])` for a range sequence. -/
def resolveIdx : IdxSpec → List Nat
  | .range a b => List.range' a (b - a)
  | .ranges rs => (rs.map fun r => List.range' r.1 (r.2 - r.1)).flatten

/-- Fancy indexing `x[idx]` of a row list by a resolved index list.
Out-of-range access is `none` (numpy raises `IndexError`). -/
def sliceRows (x : List Int) : List Nat → Option (List Int)
  | [] => some []
  | i :: is =>
    match x.get? i, sliceRows x is with
    | some v, some vs => some (v :: vs)
    | _, _ => none

/-- Model of `_slice_array(x, y, idx)` from the source: resolve the index
specification, slice `x` (and `y` when present) by it, and return the
resolved index alongside.  `idx = None` returns the input unchanged.
`none` models the numpy `IndexError` on an out-of-range index. -/
def _slice_array (x : List Int) (y : Option (List Int)) (idx : Option IdxSpec) :
    Option (List Int × Option (List Int) × Option (List Nat)) :=
  match idx with
  | none => some (x, y, none)
  | some spec =>
    let is := resolveIdx spec
    match sliceRows x is with
    | none => none
    | some x' =>
      match y with
      | none => some (x', none, some is)
      | some ys =>
        match sliceRows ys is with
        | none => none
        | some y' => some (x', some y', some is)

/-- Prediction output of an estimator: 1-D (`len(p.shape) == 1`) or 2-D
with `w = p.shape[1]` columns. -/
inductive Pred where
  | vec (vs : List Int)
  | mat (vss : List (List Int)) (w : Nat)
  deriving DecidableEq, Repr

/-- Behavioural model of a transformer instance: whether `fit` raises,
whether `transform` raises, and the value `transform` returns when it
succeeds.  A successful `fit(x, y)` returns the (fitted) instance itself. -/
structure PyTr where
  fitExc : Bool
  transformExc : Bool
  tf : List Int → List Int

/-- Behavioural model of an estimator instance: whether `fit` raises,
whether the prediction method (`predict`/`predict_proba`) raises, and the
prediction returned on success.  `fit(x, y)` returns the fitted object,
modelled as the instance itself. -/
structure PyEst where
  fitExc : Bool
  predictExc : Bool
  pr : List Int → Pred

/-- Model of `_fit_tr` from the source: `tr.fit(x, y)` wrapped in a try/except that
always raises `FitFailedError` on any exception.  There is no
`raise_on_exception` parameter in the source, hence none here. -/
def _fit_tr (x : List Int) (y : Option (List Int)) (tr : PyTr) : Except Err PyTr :=
  if tr.fitExc then .error .fitFailed else .ok tr

/-- Model of `_transform_tr` from the source: `tr.transform(x)` wrapped in a
try/except that always raises `FitFailedError` on any exception,
independent of any configuration. -/
def _transform_tr (x : List Int) (tr : PyTr) : Except Err (List Int) :=
  if tr.transformExc then .error .fitFailed else .ok (tr.tf x)

/-- Model of `_fit_est` from the source: `est.fit(x, y)` in a try/except; on an
exception it raises `FitFailedError` when `raise_on_exception` is set and
otherwise emits a `FitFailedWarning` and falls through, returning `None`
(the Python function has no `return` on that path). -/
def _fit_est (inst : PyEst) (raiseExc : Bool) :
    List Warn × Except Err (Option PyEst) :=
  if inst.fitExc then
    if raiseExc then ([], .error .fitFailed)
    else ([.fitFailedW], .ok none)
  else ([], .ok (some inst))

/-- Model of `_predict_est` from the source: `getattr(est, attr)(x)` in a
try/except.  With `est = None` the attribute access raises
`AttributeError` inside the `try`, so it is classified like any other
prediction failure.  On failure: raise `PredictFailedError` when
`raise_on_exception` is set, else emit a `PredictFailedWarning` and fall
through returning `None`. -/
def _predict_est (x : List Int) (est : Option PyEst) (raiseExc : Bool) :
    List Warn × Except Err (Option Pred) :=
  match est with
  | none =>
    if raiseExc then ([], .error .predictFailed)
    else ([.predictFailedW], .ok none)
  | some e =>
    if e.predictExc then
      if raiseExc then ([], .error .predictFailed)
      else ([.predictFailedW], .ok none)
    else ([], .ok (some (e.pr x)))

/-- Chaining `x = _transform_tr(x, tr, ...)` over a fitted transformer
list, as done in `fit_est`, `predict_est` and `predict_fold_est`. -/
def transformChain (x : List Int) : List (String × PyTr) → Except Err (List Int)
  | [] => .ok x
  | (_, tr) :: rest =>
    match _transform_tr x tr with
    | .error e => .error e
    | .ok x' => transformChain x' rest

/-- One recorded write into the shared prediction matrix: the row index
actually used to index `P` (an `Int`, since the source computes it as
`tei - rebase`), the column, and the value written. -/
structure MWrite where
  row : Int
  col : Nat
  val : Int
  deriving DecidableEq, Repr

/-- Writes performed by `pred[tei, col] = p` for a 1-D prediction, after
the row indices have been shifted by `rebase`. -/
def writeVecAt (is : List Nat) (rebase : Int) (col : Nat) (vs : List Int) :
    List MWrite :=
  (is.zip vs).map fun iv => ⟨(iv.1 : Int) - rebase, col, iv.2⟩

/-- Writes performed by `pred[np.ix_(tei, np.arange(col, col + w))] = p`
for a 2-D prediction. -/
def writeMatAt (is : List Nat) (rebase : Int) (col w : Nat)
    (vss : List (List Int)) : List MWrite :=
  ((is.zip vss).map fun iv =>
    (List.range w).map fun j => MWrite.mk ((iv.1 : Int) - rebase) (col + j) (iv.2.getD j 0)).flatten

/-- Writeback dispatch on `len(p.shape)`: a 1-D prediction writes one
column, a 2-D prediction writes the contiguous column block starting at
`col`.  A shape mismatch between the prediction and the target region is
numpy's broadcast `ValueError`. -/
def writePred (p : Pred) (is : List Nat) (rebase : Int) (col : Nat) :
    Except Err (List MWrite) :=
  match p with
  | .vec vs =>
    if vs.length = is.length then .ok (writeVecAt is rebase col vs)
    else .error .valueError
  | .mat vss w =>
    if vss.length = is.length ∧ vss.all fun r => r.length = w then
      .ok (writeMatAt is rebase col w vss)
    else .error .valueError

/-! ## Wait protocol (`_load_trans`)

Time is discretised in units of one poll interval: each iteration of the
source's `while not os.path.exists(dir): sleep(s); ...` loop advances the
clock by one unit.  `find t` is the cache content observable at time `t`
(`none` = the key is absent, mirroring both the failed initial
`pickle_load` and a false `os.path.exists`).  The loop always terminates
within `2 * lim + 2` iterations, so it is written with fuel `2 * lim + 3`
supplied by `_load_trans`; the fuel-exhaustion branch is unreachable. -/

/-- Outcome of one `_load_trans` call: number of warnings emitted, number
of `sleep` calls performed (polls), and the result (`ParallelProcessingError`
or the payload). -/
structure LoadOut (π : Type) where
  warns : Nat
  polls : Nat
  result : Except Err π
  deriving Repr

/-- The polling loop of `_load_trans`.  State: remaining fuel, current
time `t`, timer origin `ts`, the (mutable in the source) flag
`raise_on_exception`, warnings and polls so far. -/
def loadLoop (find : Nat → Option π) (lim : Nat) :
    Nat → Nat → Nat → Bool → Nat → Nat → LoadOut π
  | 0, _, _, _, w, polls => ⟨w, polls, .error .parallelProcessing⟩
  | fuel + 1, t, ts, rf, w, polls =>
    match find t with
    | some p => ⟨w, polls, .ok p⟩
    | none =>
      if t + 1 - ts > lim then
        if rf then ⟨w, polls + 1, .error .parallelProcessing⟩
        else loadLoop find lim fuel (t + 1) (t + 1) true (w + 1) (polls + 1)
      else loadLoop find lim fuel (t + 1) ts rf w (polls + 1)

/-- Model of `_load_trans` from the source: try an immediate load; on failure raise
`ParallelProcessingError` at once when `raise_on_exception` is set,
otherwise poll.  On the first timeout it warns (`ParallelProcessingWarning`),
sets `raise_on_exception = True` and resets the timer; on the second
timeout it raises. -/
def _load_trans (find : Nat → Option π) (lim : Nat) (raiseExc : Bool) :
    LoadOut π :=
  match find 0 with
  | some p => ⟨0, 0, .ok p⟩
  | none =>
    if raiseExc then ⟨0, 0, .error .parallelProcessing⟩
    else loadLoop find lim (2 * lim + 3) 0 0 false 0 0

/-! ## Cache store and stage tasks -/

/-- A payload persisted in the disk cache by one task and read by
another.  A transformer task saves its ordered fitted step list; an
estimator task saves the tuple `(inst_name, est, idx, s)` where `est` may
be `None` (dropped instance), `idx` is `(tei, col)` (with `tei = None`
when no predictions were made) and `s` the score or `None`. -/
inductive CacheVal where
  | trans (steps : List (String × PyTr))
  | est (instName : String) (obj : Option PyEst) (idx : Option IdxSpec × Nat)
      (score : Option ℚ)

/-- The cache is the key-addressed blob store: an association list from
file name to pickled payload. -/
abbrev Cache := List (String × CacheVal)

/-- Model of `pickle_load`-style lookup by key. -/
def cacheGet : Cache → String → Option CacheVal
  | [], _ => none
  | (k, v) :: rest, key => if k = key then some v else cacheGet rest key

/-- The transformer payload at a key, when the key holds one. -/
def cacheGetTrans (cache : Cache) (key : String) :
    Option (List (String × PyTr)) :=
  match cacheGet cache key with
  | some (.trans steps) => some steps
  | _ => none

/-- The loop body of `fit_trans`: fit each transformer in order; when the
case has more than one step, transform the running data for the next step
(the source tests `len(inst) > 1` once, so the flag is constant). -/
def fitTransLoop (x : List Int) (y : Option (List Int)) (multi : Bool) :
    List (String × PyTr) → Except Err (List (String × PyTr))
  | [] => .ok []
  | (nm, tr) :: rest =>
    match _fit_tr x y tr with
    | .error e => .error e
    | .ok tr' =>
      if multi then
        match _transform_tr x tr' with
        | .error e => .error e
        | .ok x' =>
          match fitTransLoop x' y multi rest with
          | .error e => .error e
          | .ok out => .ok ((nm, tr') :: out)
      else
        match fitTransLoop x y multi rest with
        | .error e => .error e
        | .ok out => .ok ((nm, tr') :: out)

/-- Model of `fit_trans` from the source: slice the training data, fit the
transformer chain and persist the ordered fitted list under the key
`case + "__t"`.  The returned list is the cache entries the task saves. -/
def fit_trans (caseName : String) (inst : List (String × PyTr))
    (X : List Int) (y : List Int) (idx : Option IdxSpec) :
    Except Err (List (String × CacheVal)) :=
  match _slice_array X (some y) idx with
  | none => .error .indexError
  | some (x, z, _) =>
    match fitTransLoop x z (decide (inst.length > 1)) inst with
    | .error e => .error e
    | .ok out => .ok [(caseName ++ "__t", .trans out)]

/-- Model of `fit_est` from the source.  Arguments mirror the Python signature:
the cache directory becomes the `cache` snapshot the task can read, `idx`
is split into `tri`, `tei` and `col`, `predRows` is `pred.shape[0]`
(meaningful only when `tei` is present, exactly as in the dispatch where
`pred` is passed only then).  Returns the emitted warnings and, on
success, the matrix writes performed and the cache entries saved. -/
def fit_est (cache : Cache) (caseName instName : String) (inst : PyEst)
    (X : List Int) (y : List Int) (predRows : Nat)
    (tri tei : Option IdxSpec) (col : Nat)
    (raiseExc : Bool) (preprocess : Bool) (lim : Nat)
    (scorer : Option (List Int → Pred → Option ℚ)) :
    List Warn × Except Err (List MWrite × List (String × CacheVal)) :=
  match _slice_array X (some y) tri with
  | none => ([], .error .indexError)
  | some (x0, _, _) =>
    -- load transformers through the wait protocol (static cache snapshot)
    let lo : LoadOut (List (String × PyTr)) :=
      if preprocess then
        _load_trans (fun _ => cacheGetTrans cache (caseName ++ "__t")) lim raiseExc
      else ⟨0, 0, .ok []⟩
    let wload := List.replicate lo.warns Warn.parallelProcessingW
    match lo.result with
    | .error e => (wload, .error e)
    | .ok trList =>
      match transformChain x0 trList with
      | .error e => (wload, .error e)
      | .ok _x1 =>
        let fe := _fit_est inst raiseExc
        match fe.2 with
        | .error e => (wload ++ fe.1, .error e)
        | .ok est =>
          let wsofar := wload ++ fe.1
          match tei with
          | none =>
            -- no predictions asked: idx = (None, col), s = None
            (wsofar, .ok ([], [(caseName ++ "__" ++ instName ++ "__e",
              .est instName est (none, col) none)]))
          | some teiSpec =>
            match _slice_array X (some y) (some teiSpec) with
            | none => (wsofar, .error .indexError)
            | some (xt, zt, teiR) =>
              let is := teiR.getD []
              match transformChain xt trList with
              | .error e => (wsofar, .error e)
              | .ok xt1 =>
                let pe := _predict_est xt1 est raiseExc
                let wsofar := wsofar ++ pe.1
                match pe.2 with
                | .error e => (wsofar, .error e)
                | .ok none =>
                  -- p is None: `len(p.shape)` raises AttributeError
                  (wsofar, .error .attributeError)
                | .ok (some p) =>
                  let rebase : Int := (X.length : Int) - (predRows : Int)
                  match writePred p is rebase col with
                  | .error e => (wsofar, .error e)
                  | .ok writes =>
                    -- `try: s = scorer(z, p) except Exception: s = None`;
                    -- `scorer = None` raises TypeError, caught the same way
                    let s : Option ℚ :=
                      match scorer with
                      | none => none
                      | some f => f (zt.getD []) p
                    (wsofar, .ok (writes,
                      [(caseName ++ "__" ++ instName ++ "__e",
                        .est instName est (some teiSpec, col) s)]))

/-- Model of `predict_est` from the source: transform the full test data, predict
with the raising flag hardcoded to `True` (the comment in the source:
errors are coerced on failed predictions), and write all rows of the
assigned column block. -/
def predict_est (trList : List (String × PyTr)) (est : PyEst)
    (xtest : List Int) (predRows : Nat) (col : Nat) :
    List Warn × Except Err (List MWrite) :=
  match transformChain xtest trList with
  | .error e => ([], .error e)
  | .ok x =>
    let pe := _predict_est x (some est) true
    match pe.2 with
    | .error e => (pe.1, .error e)
    | .ok none => (pe.1, .error .attributeError)
    | .ok (some p) => (pe.1, writePred p (List.range predRows) 0 col)

/-- Model of `predict_fold_est` from the source: slice the test rows of the fold,
transform, predict with the raising flag hardcoded to `True`, rebase the
held-out index by `xtest.shape[0] - pred.shape[0]` and write.  A `None`
fold index would make `tei -= rebase` a `TypeError`. -/
def predict_fold_est (trList : List (String × PyTr)) (est : PyEst)
    (xtest : List Int) (predRows : Nat)
    (teiSpec : Option IdxSpec) (col : Nat) :
    List Warn × Except Err (List MWrite) :=
  match _slice_array xtest none teiSpec with
  | none => ([], .error .indexError)
  | some (x0, _, teiR) =>
    match transformChain x0 trList with
    | .error e => ([], .error e)
    | .ok x1 =>
      let pe := _predict_est x1 (some est) true
      match pe.2 with
      | .error e => (pe.1, .error e)
      | .ok none => (pe.1, .error .attributeError)
      | .ok (some p) =>
        match teiR with
        | none => (pe.1, .error .typeError)
        | some is =>
          let rebase : Int := (xtest.length : Int) - (predRows : Int)
          (pe.1, writePred p is rebase col)

/-! ## Assembly of fitted artifacts (`_assemble`) -/

/-- An entry of the estimator task list `self.e`:
`(case, tri, tei, instance_list)`. -/
abbrev ETup := String × Option IdxSpec × Option IdxSpec × List (String × PyEst)

/-- An entry of the transformer task list `self.t`. -/
abbrev TTup := String × Option IdxSpec × Option IdxSpec × List (String × PyTr)

/-- The per-case loop of `_assemble(dir, instance_list, 't')`: load
`case + "__t"` for every case.  A missing key is `pickle_load`'s
`FileNotFoundError`. -/
def assembleTList (cache : Cache) :
    List TTup → Except Err (List (String × List (String × PyTr)))
  | [] => .ok []
  | tup :: rest =>
    match cacheGet cache (tup.1 ++ "__t") with
    | some (.trans steps) =>
      match assembleTList cache rest with
      | .error e => .error e
      | .ok out => .ok ((tup.1, steps) :: out)
    | some _ => .error .typeError
    | none => .error .fileNotFound

/-- Model of `_assemble(dir, instance_list, 't')`: `None` in, `None` out; otherwise
run the per-case loop. -/
def assembleT (cache : Cache) :
    Option (List TTup) → Except Err (Option (List (String × List (String × PyTr))))
  | none => .ok none
  | some tlist =>
    match assembleTList cache tlist with
    | .error e => .error e
    | .ok out => .ok (some out)

/-- One fitted-estimator record as `_assemble` rebuilds it:
`(case, loaded[:-1]) = (case, (inst_name, est, idx))`. -/
abbrev EstRec := String × String × Option PyEst × (Option IdxSpec × Nat)

/-- Inner loop of `_assemble(dir, instance_list, 'e')` over one case's
instance names. -/
def assembleECase (cache : Cache) (caseName : String) :
    List String → Except Err (List EstRec × List (String × Option ℚ))
  | [] => .ok ([], [])
  | nm :: rest =>
    match cacheGet cache (caseName ++ "__" ++ nm ++ "__e") with
    | some (.est n o i s) =>
      match assembleECase cache caseName rest with
      | .error e => .error e
      | .ok (es, ss) =>
        .ok ((caseName, n, o, i) :: es, (caseName ++ "___" ++ nm, s) :: ss)
    | some _ => .error .typeError
    | none => .error .fileNotFound

/-- Model of `_assemble(dir, instance_list, 'e')`: iterate over the estimator task
list, load each `case + "__" + name + "__e"` entry and split it into the
fitted-estimator record and the score record keyed `case + "___" + name`. -/
def assembleE (cache : Cache) :
    List ETup → Except Err (List EstRec × List (String × Option ℚ))
  | [] => .ok ([], [])
  | tup :: rest =>
    match assembleECase cache tup.1 (tup.2.2.2.map Prod.fst) with
    | .error e => .error e
    | .ok (es, ss) =>
      match assembleE cache rest with
      | .error e => .error e
      | .ok (es', ss') => .ok (es ++ es', ss ++ ss')

/-! ## Score aggregation (`_mean_score`, `_build_scores`) -/

/-- Arithmetic mean of a rational list (the value of `np.mean` on a clean
score list). -/
def listMean (v : List ℚ) : ℚ := v.sum / v.length

/-- Population variance, the square of `np.std`.  No claim under
verification depends on the numeric value of the dispersion component,
only on whether the reduction succeeds, so the pair below records
`(mean, variance)` as the reduced value. -/
def listVar (v : List ℚ) : ℚ := (v.map fun q => (q - listMean v) ^ 2).sum / v.length

/-- Model of `_mean_score` from the source: `np.mean`/`np.std` of the group raise
`TypeError` as soon as a `None` is present; the handler raises
`ParallelProcessingError` when `raise_` is set and otherwise warns
(`ParallelProcessingWarning`) and falls through, returning `None`. -/
def _mean_score (v : List (Option ℚ)) (raiseExc : Bool) :
    List Warn × Except Err (Option (ℚ × ℚ)) :=
  if v.any fun q => q.isNone then
    if raiseExc then ([], .error .parallelProcessing)
    else ([.parallelProcessingW], .ok none)
  else ([], .ok (some (listMean (v.filterMap id), listVar (v.filterMap id))))

/-- Python dict assignment `d[k] = v` on an insertion-ordered dict. -/
def dictSet (d : List (String × β)) (k : String) (v : β) : List (String × β) :=
  match d with
  | [] => [(k, v)]
  | (k', v') :: rest =>
    if k' = k then (k', v) :: rest else (k', v') :: dictSet rest k v

/-- Python `d[k].append(v)`: `none` models the `KeyError` on a missing
key. -/
def dictAppend (d : List (String × List β)) (k : String) (v : β) :
    Option (List (String × List β)) :=
  match d with
  | [] => none
  | (k', vs) :: rest =>
    if k' = k then some ((k', vs ++ [v]) :: rest)
    else (dictAppend rest k v).map fun d' => (k', vs) :: d'

/-- Python `s.split('__')` on the character list: non-overlapping,
leftmost-first, keeping empty parts.  Specialised to the two-underscore
separator and written by structural recursion so that concrete instances
reduce definitionally. -/
def split2Aux : List Char → List (List Char)
  | '_' :: '_' :: rest => [] :: split2Aux rest
  | c :: rest =>
    match split2Aux rest with
    | [] => [[c]]
    | g :: gs => (c :: g) :: gs
  | [] => [[]]

/-- Python `s.split('___')` on the character list, likewise. -/
def split3Aux : List Char → List (List Char)
  | '_' :: '_' :: '_' :: rest => [] :: split3Aux rest
  | c :: rest =>
    match split3Aux rest with
    | [] => [[c]]
    | g :: gs => (c :: g) :: gs
  | [] => [[]]

/-- Python `s.split('__')`. -/
def pySplit2 (s : String) : List String := (split2Aux s.data).map String.mk

/-- Python `s.split('___')`. -/
def pySplit3 (s : String) : List String := (split3Aux s.data).map String.mk

/-- Python `'__'.join(parts)`. -/
def pyJoin2 : List String → String
  | [] => ""
  | [s] => s
  | s :: rest => s ++ "__" ++ pyJoin2 rest

/-- First loop of `_build_scores`: seed the dict with the canonical names
of the `n_pred` root entries (`case___est` split on `"___"`); tuple
unpacking of a split that is not exactly two parts is a `ValueError`. -/
def buildShell : List (String × Option ℚ) →
    Except Err (List (String × List (Option ℚ)))
  | [] => .ok []
  | (k, _) :: rest =>
    match pySplit3 k with
    | [caseName, estName] =>
      let nm := if caseName = "" then estName else caseName ++ "__" ++ estName
      match buildShell rest with
      | .error e => .error e
      | .ok d => .ok (dictSet d nm [])
    | _ => .error .valueError

/-- Second loop of `_build_scores`: strip the fold suffix
(`'__'.join(est_name.split('__')[:-1])`), recover the canonical case name
(`case_name.split('__')[0]` when `'__' in case_name`) and append the fold
score to its group.  `'__' in case_name` is rendered as the two-underscore
split having more than one part. -/
def populateScores (d : List (String × List (Option ℚ))) :
    List (String × Option ℚ) → Except Err (List (String × List (Option ℚ)))
  | [] => .ok d
  | (k, v) :: rest =>
    match pySplit3 k with
    | [caseName, estName] =>
      let estName' := pyJoin2 (pySplit2 estName).dropLast
      let nm :=
        if (pySplit2 caseName).length = 1 then estName'
        else ((pySplit2 caseName).headD "") ++ "__" ++ estName'
      match dictAppend d nm v with
      | none => .error .keyError
      | some d' => populateScores d' rest
    | _ => .error .valueError

/-- Final loop of `_build_scores`: replace every group by
`_mean_score(group)`, accumulating warnings and aborting on the first
error. -/
def aggScores (raiseExc : Bool) : List (String × List (Option ℚ)) →
    List Warn × Except Err (List (String × Option (ℚ × ℚ)))
  | [] => ([], .ok [])
  | (k, v) :: rest =>
    let m := _mean_score v raiseExc
    match m.2 with
    | .error e => (m.1, .error e)
    | .ok mv =>
      let r := aggScores raiseExc rest
      match r.2 with
      | .error e => (m.1 ++ r.1, .error e)
      | .ok tbl => (m.1 ++ r.1, .ok ((k, mv) :: tbl))

/-- Model of `_build_scores` from the source: shell from the first `n_pred`
entries, populate from the fold entries, aggregate each group. -/
def _build_scores (nPred : Nat) (raiseExc : Bool)
    (s : List (String × Option ℚ)) :
    List Warn × Except Err (List (String × Option (ℚ × ℚ))) :=
  match buildShell (s.take nPred) with
  | .error e => ([], .error e)
  | .ok d0 =>
    match populateScores d0 (s.drop nPred) with
    | .error e => ([], .error e)
    | .ok d => aggScores raiseExc d

/-! ## Fitted-state check and the public `predict` entry -/

/-- Shape of `layer.estimators_` as `_check_fitted` inspects it: a
list/tuple/set of fitted entries, a dict mapping case names to entry
lists, or some other shape (for which the source skips the check).
`none` at the call site models the attribute being absent, which
`check_is_fitted` turns into `NotFittedError`.  Entries are abstracted to
their names; only counts matter to the check. -/
inductive EstsAttr where
  | lst (es : List String)
  | dct (d : List (String × List String))
  | other

/-- Model of `_check_fitted` from the source: missing attribute raises; a list
raises when empty; a dict raises when **any** of its values is an empty
list; any other shape passes. -/
def _check_fitted (ests : Option EstsAttr) : Except Err Unit :=
  match ests with
  | none => .error .notFitted
  | some (.lst es) => if es.length = 0 then .error .notFitted else .ok ()
  | some (.dct d) =>
    if d.any fun kv => kv.2.length = 0 then .error .notFitted else .ok ()
  | some .other => .ok ()

/-- The prologue of the public `predict`/`transform` operations: run
`_check_fitted` and only then hand the task stream to the parallel-for
primitive.  The tasks themselves are opaque here; an error means no task
is ever dispatched. -/
def predictOp (ests : Option EstsAttr) (tasks : List Nat) :
    Except Err (List Nat) :=
  match _check_fitted ests with
  | .error e => .error e
  | .ok _ => .ok tasks

/-! ## Layer-level `fit` orchestration (dual mode)

`BaseEstimator.fit` in dual mode dispatches one wave of `fit_trans` tasks
and one wave of `fit_est` tasks, then reassembles from the cache.  The
parallel-for primitive is modelled as sequential execution in declaration
order: tasks in a wave are independent (estimator tasks read only the
transformer keys, written by the earlier wave), and joblib surfaces the
first worker exception, aborting the call. -/

/-- Read-only layer configuration relevant to `fit` (the corresponding
subset of the `Layer` collaborator): the transformer and estimator task
lists, the column map, `raise_on_exception`, `lim` (in poll-interval
units), the optional scorer and `n_pred`. -/
structure LayerSpec where
  tlist : Option (List TTup)
  elist : List ETup
  cmap : String → String → Nat
  raiseExc : Bool
  lim : Nat
  scorer : Option (List Int → Pred → Option ℚ)
  nPred : Nat

/-- The transformer wave: run every `fit_trans` task, accumulating the
cache entries; the first exception aborts. -/
def runTrans (X y : List Int) : List TTup → Except Err Cache
  | [] => .ok []
  | (cn, tri, _, instl) :: rest =>
    match fit_trans cn instl X y tri with
    | .error e => .error e
    | .ok saves =>
      match runTrans X y rest with
      | .error e => .error e
      | .ok more => .ok (saves ++ more)

/-- One case's estimator tasks: `fit_est` for every instance of the
instance list, against the (fixed) transformer-wave cache. -/
def runEstCase (spec : LayerSpec) (cache : Cache) (X y : List Int)
    (predRows : Nat) (cn : String) (tri tei : Option IdxSpec)
    (preprocess : Bool) :
    List (String × PyEst) →
    List Warn × Except Err (List MWrite × List (String × CacheVal))
  | [] => ([], .ok ([], []))
  | (nm, inst) :: rest =>
    let r := fit_est cache cn nm inst X y predRows tri tei (spec.cmap cn nm)
      spec.raiseExc preprocess spec.lim spec.scorer
    match r.2 with
    | .error e => (r.1, .error e)
    | .ok (ws, saves) =>
      let r' := runEstCase spec cache X y predRows cn tri tei preprocess rest
      match r'.2 with
      | .error e => (r.1 ++ r'.1, .error e)
      | .ok (ws', saves') => (r.1 ++ r'.1, .ok (ws ++ ws', saves ++ saves'))

/-- The estimator wave over the whole task list. -/
def runEsts (spec : LayerSpec) (cache : Cache) (X y : List Int)
    (predRows : Nat) (preprocess : Bool) :
    List ETup → List Warn × Except Err (List MWrite × List (String × CacheVal))
  | [] => ([], .ok ([], []))
  | (cn, tri, tei, instl) :: rest =>
    let r := runEstCase spec cache X y predRows cn tri tei preprocess instl
    match r.2 with
    | .error e => (r.1, .error e)
    | .ok (ws, saves) =>
      let r' := runEsts spec cache X y predRows preprocess rest
      match r'.2 with
      | .error e => (r.1 ++ r'.1, .error e)
      | .ok (ws', saves') => (r.1 ++ r'.1, .ok (ws ++ ws', saves ++ saves'))

/-- The result `fit` leaves on the layer: the matrix writes performed,
`layer.preprocessing_`, `layer.estimators_` and `layer.scores_`. -/
structure FitOut where
  writes : List MWrite
  preprocessing_ : Option (List (String × List (String × PyTr)))
  estimators_ : List EstRec
  scores_ : Option (List (String × Option (ℚ × ℚ)))

/-- Model of `BaseEstimator.fit` in dual mode: right-align `y` when it has more
rows than `X`, run the transformer wave then the estimator wave, and
reassemble the fitted state from the cache (building the score table when
a scorer is configured). -/
def fitLayer (spec : LayerSpec) (X y : List Int) (predRows : Nat) :
    List Warn × Except Err FitOut :=
  let y' := if y.length > X.length then y.drop (y.length - X.length) else y
  let preprocess := spec.tlist.isSome
  match runTrans X y' (spec.tlist.getD []) with
  | .error e => ([], .error e)
  | .ok cacheT =>
    let r := runEsts spec cacheT X y' predRows preprocess spec.elist
    match r.2 with
    | .error e => (r.1, .error e)
    | .ok (writes, cacheE) =>
      let cache := cacheT ++ cacheE
      match assembleT cache spec.tlist with
      | .error e => (r.1, .error e)
      | .ok prep =>
        match assembleE cache spec.elist with
        | .error e => (r.1, .error e)
        | .ok (ests, scorePairs) =>
          match spec.scorer with
          | none => (r.1, .ok ⟨writes, prep, ests, none⟩)
          | some _ =>
            let b := _build_scores spec.nPred spec.raiseExc scorePairs
            match b.2 with
            | .error e => (r.1 ++ b.1, .error e)
            | .ok tbl => (r.1 ++ b.1, .ok ⟨writes, prep, ests, some tbl⟩)

/-! ## Concrete instances used in the concrete evaluations -/

/-- The success component of an `Except` result. -/
def okPart : Except Err α → Option α
  | .ok a => some a
  | .error _ => none

/-- An estimator whose `fit` raises and whose predictions succeed. -/
def badFitEst : PyEst := ⟨true, false, fun _ => .vec []⟩

/-- An estimator whose `fit` succeeds and whose `predict` raises. -/
def badPredEst : PyEst := ⟨false, true, fun _ => .vec []⟩

/-- A well-behaved transformer (identity transform). -/
def okTr : PyTr := ⟨false, false, fun x => x⟩

/-- A transformer whose `fit` raises. -/
def badFitTr : PyTr := ⟨true, false, fun x => x⟩

/-- A transformer whose `transform` raises. -/
def badTfTr : PyTr := ⟨false, true, fun x => x⟩

/-- Layer spec with one case, one estimator whose `fit` raises, a
held-out fold `(0, 2)`, non-raising policy, no preprocessing, no scorer. -/
def specFold : LayerSpec :=
  ⟨none, [("c", none, some (.range 0 2), [("bad", badFitEst)])],
   fun _ _ => 0, false, 1, none, 0⟩

/-- Same layer but the failing estimator is a full-data fit (no held-out
fold, hence no prediction step). -/
def specFull : LayerSpec :=
  ⟨none, [("c", none, none, [("bad", badFitEst)])],
   fun _ _ => 0, false, 1, none, 0⟩

/-! # Theorems -/

/-! ## Helper lemmas about the slice engine -/

theorem sliceRows_nil (x : List Int) : sliceRows x [] = some [] := rfl

theorem sliceRows_cons (x : List Int) (i : Nat) (is : List Nat) :
    sliceRows x (i :: is) =
      match x.get? i, sliceRows x is with
      | some v, some vs => some (v :: vs)
      | _, _ => none := rfl

/-- When every index is in range, fancy indexing returns exactly the rows
at those indices, in order. -/
theorem sliceRows_eq_map (x : List Int) (is : List Nat)
    (h : ∀ i ∈ is, i < x.length) :
    sliceRows x is = some (is.map fun i => x.getD i 0) := by
  induction is with
  | nil => rfl
  | cons i is ih =>
    have hi : i < x.length := h i (List.mem_cons_self i is)
    have hrest : ∀ j ∈ is, j < x.length := fun j hj => h j (List.mem_cons_of_mem i hj)
    have hget : x.get? i = some (x.getD i 0) := by
      rw [List.getD_eq_getD_get?, List.get?_eq_get hi]
      rfl
    rw [sliceRows_cons, hget, ih hrest]
    rfl

/-- Appending index lists concatenates the slices (when both succeed). -/
theorem sliceRows_append (x : List Int) (is js : List Nat) :
    sliceRows x (is ++ js) =
      match sliceRows x is, sliceRows x js with
      | some us, some vs => some (us ++ vs)
      | _, _ => none := by
  induction is with
  | nil =>
    simp only [List.nil_append, sliceRows_nil]
    cases sliceRows x js <;> rfl
  | cons i is ih =>
    simp only [List.cons_append, sliceRows_cons, ih]
    cases x.get? i <;> cases sliceRows x is <;> cases sliceRows x js <;> rfl

/-- Indices drawn from a range `(a, b)` with `b` within the row count are
in range. -/
theorem mem_range'_lt (a b n : Nat) (hb : b ≤ n) :
    ∀ i ∈ List.range' a (b - a), i < n := by
  intro i hi
  have h := List.mem_range'_1.mp hi
  omega

/-- C5: `_slice_array` with `idx = None` returns the rows of `x`
unchanged; with a single range `(a, b)` it returns exactly rows
`a .. b-1` of `x` in order; with a sequence of ranges it returns the
concatenation of each range's rows, preserving range order. -/
theorem C5_slice_array_spec :
    (∀ (x : List Int) (y : Option (List Int)),
      _slice_array x y none = some (x, y, none)) ∧
    (∀ (x : List Int) (a b : Nat), b ≤ x.length →
      _slice_array x none (some (.range a b)) =
        some ((List.range' a (b - a)).map fun i => x.getD i 0, none,
              some (List.range' a (b - a)))) ∧
    (∀ (x : List Int) (rs : List (Nat × Nat)), (∀ r ∈ rs, r.2 ≤ x.length) →
      _slice_array x none (some (.ranges rs)) =
        some ((rs.map fun r => (List.range' r.1 (r.2 - r.1)).map fun i => x.getD i 0).flatten,
              none,
              some ((rs.map fun r => List.range' r.1 (r.2 - r.1)).flatten))) := by
  refine ⟨fun x y => rfl, fun x a b hb => ?_, fun x rs h => ?_⟩
  · simp only [_slice_array, resolveIdx]
    rw [sliceRows_eq_map x _ (mem_range'_lt a b x.length hb)]
  · simp only [_slice_array, resolveIdx]
    have hmap : sliceRows x ((rs.map fun r => List.range' r.1 (r.2 - r.1)).flatten) =
        some ((rs.map fun r => (List.range' r.1 (r.2 - r.1)).map fun i => x.getD i 0).flatten) := by
      induction rs with
      | nil => rfl
      | cons r rs ih =>
        have hr : r.2 ≤ x.length := h r (List.mem_cons_self r rs)
        have hrest : ∀ q ∈ rs, q.2 ≤ x.length :=
          fun q hq => h q (List.mem_cons_of_mem r hq)
        simp only [List.map_cons, List.flatten_cons, sliceRows_append]
        rw [sliceRows_eq_map x _ (mem_range'_lt r.1 r.2 x.length hr), ih hrest]
    rw [hmap]

/-- C5 witness: concrete instances of all three parts, including the
spec's example `[(0,2),(5,7)]` yielding rows `[0,1,5,6]`. -/
theorem C5_slice_array_spec_witness :
    _slice_array [10, 20, 30] (some [1, 2, 3]) none =
        some ([10, 20, 30], some [1, 2, 3], none) ∧
    _slice_array [10, 20, 30, 40, 50, 60, 70] none (some (.range 1 3)) =
        some ([20, 30], none, some [1, 2]) ∧
    _slice_array [10, 20, 30, 40, 50, 60, 70] none (some (.ranges [(0, 2), (5, 7)])) =
        some ([10, 20, 60, 70], none, some [0, 1, 5, 6]) := by
  refine ⟨C5_slice_array_spec.1 [10, 20, 30] (some [1, 2, 3]), ?_, ?_⟩
  · exact (C5_slice_array_spec.2.1 [10, 20, 30, 40, 50, 60, 70] 1 3 (by decide)).trans
      (by decide)
  · exact (C5_slice_array_spec.2.2 [10, 20, 30, 40, 50, 60, 70] [(0, 2), (5, 7)]
      (by decide)).trans (by decide)

/-- C4: a transformer whose `fit` or `transform` raises always escalates
to `FitFailedError`: the wrappers `_fit_tr` and `_transform_tr` take no
`raise_on_exception` parameter at all, the `fit_trans` task propagates
the error, and `fit_est` (which does receive the flag) propagates a
transform failure for **both** values of the flag. -/
theorem C4_transformer_failures_always_fatal :
    (∀ (x : List Int) (y : Option (List Int)) (tr : PyTr), tr.fitExc = true →
      _fit_tr x y tr = .error .fitFailed) ∧
    (∀ (x : List Int) (tr : PyTr), tr.transformExc = true →
      _transform_tr x tr = .error .fitFailed) ∧
    (∀ (cn nm : String) (tr : PyTr) (rest : List (String × PyTr)) (X y : List Int),
      tr.fitExc = true →
      fit_trans cn ((nm, tr) :: rest) X y none = .error .fitFailed) ∧
    (∀ (b : Bool) (cache : Cache) (cn inm : String) (inst : PyEst)
       (X y : List Int) (pr col lim : Nat) (nm : String) (tr : PyTr),
      tr.transformExc = true →
      cacheGet cache (cn ++ "__t") = some (.trans [(nm, tr)]) →
      (fit_est cache cn inm inst X y pr none none col b true lim none).2 =
        .error .fitFailed) := by
  refine ⟨fun x y tr h => ?_, fun x tr h => ?_, fun cn nm tr rest X y h => ?_,
    fun b cache cn inm inst X y pr col lim nm tr htf hc => ?_⟩
  · simp [_fit_tr, h]
  · simp [_transform_tr, h]
  · simp [fit_trans, _slice_array, fitTransLoop, _fit_tr, h]
  · have hget : cacheGetTrans cache (cn ++ "__t") = some [(nm, tr)] := by
      simp [cacheGetTrans, hc]
    simp [fit_est, _slice_array, _load_trans, hget, transformChain, _transform_tr, htf]

/-- C4 witness: concrete failing transformers through all four paths. -/
theorem C4_transformer_failures_always_fatal_witness :
    _fit_tr [1] (some [2]) badFitTr = .error .fitFailed ∧
    _transform_tr [1] badTfTr = .error .fitFailed ∧
    fit_trans "c" [("t0", badFitTr)] [1, 2] [3, 4] none = .error .fitFailed ∧
    (fit_est [("c__t", .trans [("t0", badTfTr)])] "c" "e0" badPredEst
      [1, 2] [3, 4] 2 none none 0 true true 1 none).2 = .error .fitFailed ∧
    (fit_est [("c__t", .trans [("t0", badTfTr)])] "c" "e0" badPredEst
      [1, 2] [3, 4] 2 none none 0 false true 1 none).2 = .error .fitFailed := by
  refine ⟨C4_transformer_failures_always_fatal.1 [1] (some [2]) badFitTr rfl,
    C4_transformer_failures_always_fatal.2.1 [1] badTfTr rfl,
    C4_transformer_failures_always_fatal.2.2.1 "c" "t0" badFitTr [] [1, 2] [3, 4] rfl,
    C4_transformer_failures_always_fatal.2.2.2 true _ "c" "e0" badPredEst
      [1, 2] [3, 4] 2 0 1 "t0" badTfTr rfl rfl,
    C4_transformer_failures_always_fatal.2.2.2 false _ "c" "e0" badPredEst
      [1, 2] [3, 4] 2 0 1 "t0" badTfTr rfl rfl⟩

/-- C10: on the public `predict`/`transform` paths the prediction wrapper
is invoked with the raising flag hardcoded to `True`, so a failing
predict call always raises `PredictFailedError` and never takes the
warn-and-zero branch: `_predict_est` with the flag set errors without
warning, and both `predict_est` and `predict_fold_est` (which pass the
literal `True`) propagate that error and emit no warning. -/
theorem C10_predict_paths_always_raise :
    (∀ (x : List Int) (est : PyEst), est.predictExc = true →
      _predict_est x (some est) true = ([], .error .predictFailed)) ∧
    (∀ (trL : List (String × PyTr)) (est : PyEst) (X : List Int)
       (pr col : Nat) (x1 : List Int),
      transformChain X trL = .ok x1 → est.predictExc = true →
      predict_est trL est X pr col = ([], .error .predictFailed)) ∧
    (∀ (trL : List (String × PyTr)) (est : PyEst) (X : List Int)
       (pr : Nat) (spec : IdxSpec) (col : Nat)
       (x0 : List Int) (z0 : Option (List Int)) (isR : Option (List Nat)) (x1 : List Int),
      _slice_array X none (some spec) = some (x0, z0, isR) →
      transformChain x0 trL = .ok x1 → est.predictExc = true →
      predict_fold_est trL est X pr (some spec) col = ([], .error .predictFailed)) := by
  refine ⟨fun x est h => ?_, fun trL est X pr col x1 hc h => ?_,
    fun trL est X pr spec col x0 z0 isR x1 hs hc h => ?_⟩
  · simp [_predict_est, h]
  · simp [predict_est, hc, _predict_est, h]
  · simp [predict_fold_est, hs, hc, _predict_est, h]

/-- C10 witness: a concrete estimator whose predict raises, through the
wrapper and both public prediction paths. -/
theorem C10_predict_paths_always_raise_witness :
    _predict_est [1, 2] (some badPredEst) true = ([], .error .predictFailed) ∧
    predict_est [] badPredEst [1, 2] 2 0 = ([], .error .predictFailed) ∧
    predict_fold_est [] badPredEst [1, 2] 2 (some (.range 0 1)) 0 =
      ([], .error .predictFailed) := by
  refine ⟨C10_predict_paths_always_raise.1 [1, 2] badPredEst rfl,
    C10_predict_paths_always_raise.2.1 [] badPredEst [1, 2] 2 0 [1, 2] rfl rfl,
    C10_predict_paths_always_raise.2.2 [] badPredEst [1, 2] 2 (.range 0 1) 0
      [1] none (some [0]) [1] rfl rfl rfl⟩

/-- C7 counterexample: the claim says the check passes whenever at least
one fitted estimator exists, but with `estimators_` a dict whose values
are `["e1"]` and `[]` — one fitted estimator exists — `_check_fitted`
raises `NotFittedError` (it raises when **any** dict value is empty), so
`predict` errors without dispatching its task. -/
theorem C7_counterexample :
    ([["e1"], ([] : List String)].flatten).length = 1 ∧
    predictOp (some (.dct [("a", ["e1"]), ("b", [])])) [0] = .error .notFitted := by
  exact ⟨rfl, rfl⟩

/-- C7 amended: `predict` raises `NotFittedError` before dispatching any
task exactly when `estimators_` is absent, is an empty list, or is a dict
with at least one empty value; otherwise the check passes and the tasks
are dispatched (in particular a dict passes only when **every** value is
non-empty, and an unrecognized shape skips the check). -/
theorem C7_check_fitted_amended :
    (∀ tasks, predictOp none tasks = .error .notFitted) ∧
    (∀ (es : List String) tasks, predictOp (some (.lst es)) tasks =
        if es.length = 0 then .error .notFitted else .ok tasks) ∧
    (∀ (d : List (String × List String)) tasks, predictOp (some (.dct d)) tasks =
        if d.any fun kv => kv.2.length = 0 then .error .notFitted else .ok tasks) ∧
    (∀ tasks, predictOp (some .other) tasks = .ok tasks) := by
  refine ⟨fun tasks => rfl, fun es tasks => ?_, fun d tasks => ?_, fun tasks => rfl⟩
  · by_cases h : es.length = 0 <;> simp [predictOp, _check_fitted, h]
  · by_cases h : (d.any fun kv => kv.2.length = 0) = true <;>
      simp_all [predictOp, _check_fitted]

/-! ## Helper lemmas about the wait protocol -/

/-- With the key never appearing and the raise flag already set, the loop
raises at the end of the current window: started at time `t` with
`t + n + 1 = ts + lim + 1`, it sleeps `n + 1` more times and errors. -/
theorem loadLoop_never_raise {π : Type} (find : Nat → Option π) (lim : Nat)
    (hfind : ∀ u, find u = none) :
    ∀ (n : Nat), n ≤ lim → ∀ (fuel t ts w p : Nat),
      t + n + 1 = ts + lim + 1 → n + 1 ≤ fuel →
      loadLoop find lim fuel t ts true w p =
        ⟨w, p + (n + 1), .error .parallelProcessing⟩ := by
  intro n
  induction n with
  | zero =>
    intro _ fuel t ts w p ht hfuel
    match fuel, hfuel with
    | fuel + 1, _ =>
      simp only [loadLoop, hfind]
      rw [if_pos (by omega)]
      simp
  | succ n ih =>
    intro hn fuel t ts w p ht hfuel
    match fuel, hfuel with
    | fuel + 1, hfuel =>
      simp only [loadLoop, hfind]
      rw [if_neg (by omega)]
      rw [ih (by omega) fuel (t + 1) ts w (p + 1) (by omega) (by omega)]
      have : p + 1 + (n + 1) = p + (n + 1 + 1) := by omega
      rw [this]

/-- With the key never appearing and the raise flag not yet set, the loop
warns once at the end of the current window, then raises a full window
later. -/
theorem loadLoop_never_warn {π : Type} (find : Nat → Option π) (lim : Nat)
    (hfind : ∀ u, find u = none) :
    ∀ (n : Nat), n ≤ lim → ∀ (fuel t ts w p : Nat),
      t + n + 1 = ts + lim + 1 → n + 1 + (lim + 1) ≤ fuel →
      loadLoop find lim fuel t ts false w p =
        ⟨w + 1, p + (n + 1) + (lim + 1), .error .parallelProcessing⟩ := by
  intro n
  induction n with
  | zero =>
    intro _ fuel t ts w p ht hfuel
    match fuel, hfuel with
    | fuel + 1, hfuel =>
      simp only [loadLoop, hfind]
      rw [if_pos (by omega)]
      rw [loadLoop_never_raise find lim hfind lim (Nat.le_refl lim) fuel (t + 1)
        (t + 1) (w + 1) (p + 1) (by omega) (by omega)]
      have : p + 1 + (lim + 1) = p + (0 + 1) + (lim + 1) := by omega
      rw [this]
      simp
  | succ n ih =>
    intro hn fuel t ts w p ht hfuel
    match fuel, hfuel with
    | fuel + 1, hfuel =>
      simp only [loadLoop, hfind]
      rw [if_neg (by omega)]
      rw [ih (by omega) fuel (t + 1) ts w (p + 1) (by omega) (by omega)]
      have : p + 1 + (n + 1) + (lim + 1) = p + (n + 1 + 1) + (lim + 1) := by omega
      rw [this]

/-- With the key appearing from time `t0` on (and absent before), the
raise-flag phase of the loop returns the payload provided `t0` lies
within the current window's check times. -/
theorem loadLoop_found_raise {π : Type} (lim t0 : Nat) (payload : π) :
    ∀ (n : Nat), n ≤ lim → ∀ (fuel t ts w p : Nat),
      t + n + 1 = ts + lim + 1 → n + 1 ≤ fuel → t ≤ t0 → t0 ≤ ts + lim →
      (loadLoop (fun u => if t0 ≤ u then some payload else none)
        lim fuel t ts true w p).result = .ok payload := by
  intro n
  induction n with
  | zero =>
    intro _ fuel t ts w p ht hfuel hle hub
    match fuel, hfuel with
    | fuel + 1, _ =>
      have h0 : t0 = t := by omega
      simp only [loadLoop, h0, if_pos (Nat.le_refl t)]
  | succ n ih =>
    intro hn fuel t ts w p ht hfuel hle hub
    match fuel, hfuel with
    | fuel + 1, hfuel =>
      by_cases h0 : t0 ≤ t
      · have : t0 = t := by omega
        simp only [loadLoop, this, if_pos (Nat.le_refl t)]
      · simp only [loadLoop, if_neg h0]
        rw [if_neg (by omega)]
        exact ih (by omega) fuel (t + 1) ts w (p + 1) (by omega) (by omega)
          (by omega) hub

/-- With the key appearing from time `t0` on, the warn phase of the loop
returns the payload provided `t0` is checked before the second window
expires (`t0 ≤ ts + 2*lim + 1`). -/
theorem loadLoop_found_warn {π : Type} (lim t0 : Nat) (payload : π) :
    ∀ (n : Nat), n ≤ lim → ∀ (fuel t ts w p : Nat),
      t + n + 1 = ts + lim + 1 → n + 1 + (lim + 1) ≤ fuel →
      t ≤ t0 → t0 ≤ ts + 2 * lim + 1 →
      (loadLoop (fun u => if t0 ≤ u then some payload else none)
        lim fuel t ts false w p).result = .ok payload := by
  intro n
  induction n with
  | zero =>
    intro _ fuel t ts w p ht hfuel hle hub
    match fuel, hfuel with
    | fuel + 1, hfuel =>
      by_cases h0 : t0 ≤ t
      · have : t0 = t := by omega
        simp only [loadLoop, this, if_pos (Nat.le_refl t)]
      · simp only [loadLoop, if_neg h0]
        rw [if_pos (by omega)]
        exact loadLoop_found_raise lim t0 payload lim (Nat.le_refl lim) fuel
          (t + 1) (t + 1) (w + 1) (p + 1) (by omega) (by omega) (by omega)
          (by omega)
  | succ n ih =>
    intro hn fuel t ts w p ht hfuel hle hub
    match fuel, hfuel with
    | fuel + 1, hfuel =>
      by_cases h0 : t0 ≤ t
      · have : t0 = t := by omega
        simp only [loadLoop, this, if_pos (Nat.le_refl t)]
      · simp only [loadLoop, if_neg h0]
        rw [if_neg (by omega)]
        exact ih (by omega) fuel (t + 1) ts w (p + 1) (by omega) (by omega)
          (by omega) hub

/-- C3: the transformer-artifact wait.  (a) A readable key returns its
payload at once, no polls, no warnings.  (b) An absent key with
`raise_on_exception=True` raises `ParallelProcessingError` immediately,
without any poll.  (c) A key that never appears, with
`raise_on_exception=False`, produces exactly one
`ParallelProcessingWarning`, raises `ParallelProcessingError`, and polls
exactly `2*lim + 2` times — the timer is reset exactly once, so the wait
is bounded by two timeout windows of `lim + 1` poll steps each.  (d) A
key that appears at some time `t0` within the polled window returns the
payload without raising. -/
theorem C3_load_trans_wait_protocol :
    (∀ {π : Type} (find : Nat → Option π) (lim : Nat) (raiseExc : Bool) (pl : π),
      find 0 = some pl → _load_trans find lim raiseExc = ⟨0, 0, .ok pl⟩) ∧
    (∀ {π : Type} (find : Nat → Option π) (lim : Nat),
      find 0 = none → _load_trans find lim true = ⟨0, 0, .error .parallelProcessing⟩) ∧
    (∀ {π : Type} (find : Nat → Option π) (lim : Nat),
      (∀ u, find u = none) →
      _load_trans find lim false =
          ⟨1, 2 * lim + 2, .error .parallelProcessing⟩ ∧
        2 * lim + 2 ≤ 2 * (lim + 1)) ∧
    (∀ {π : Type} (lim t0 : Nat) (payload : π),
      1 ≤ t0 → t0 ≤ 2 * lim + 1 →
      (_load_trans (fun u => if t0 ≤ u then some payload else none)
        lim false).result = .ok payload) := by
  refine ⟨?_, ?_, ?_, ?_⟩
  · intro π find lim raiseExc pl h
    simp only [_load_trans, h]
  · intro π find lim h
    simp only [_load_trans, h]
    simp
  · intro π find lim h
    refine ⟨?_, by omega⟩
    simp only [_load_trans, h, if_neg Bool.false_ne_true]
    rw [loadLoop_never_warn find lim h lim (Nat.le_refl lim) (2 * lim + 3)
      0 0 0 0 (by omega) (by omega)]
    have : 0 + (lim + 1) + (lim + 1) = 2 * lim + 2 := by omega
    rw [this]
  · intro π lim t0 payload h1 h2
    have hf0 : (fun u => if t0 ≤ u then some payload else none) 0 = none := by
      simp only [if_neg (by omega : ¬ t0 ≤ 0)]
    simp only [_load_trans, hf0, if_neg Bool.false_ne_true]
    exact loadLoop_found_warn lim t0 payload lim (Nat.le_refl lim) (2 * lim + 3)
      0 0 0 0 (by omega) (by omega) (by omega) (by omega)

/-- C3 witness: with `lim = 1` (timeout window of two poll steps):
an immediately readable key; an absent key raising at once; a
never-appearing key warning once and raising after exactly four polls;
and a key appearing at time 2, returned without raising. -/
theorem C3_load_trans_wait_protocol_witness :
    _load_trans (fun _ => some 42) 1 false = ⟨0, 0, .ok 42⟩ ∧
    _load_trans (fun _ => (none : Option Nat)) 1 true =
      ⟨0, 0, .error .parallelProcessing⟩ ∧
    _load_trans (fun _ => (none : Option Nat)) 1 false =
      ⟨1, 4, .error .parallelProcessing⟩ ∧
    (_load_trans (fun u => if 2 ≤ u then some 7 else none) 1 false).result =
      .ok 7 := by
  refine ⟨C3_load_trans_wait_protocol.1 (fun _ => some 42) 1 false 42 rfl,
    C3_load_trans_wait_protocol.2.1 (fun _ => none) 1 rfl,
    ((C3_load_trans_wait_protocol.2.2.1 (fun _ => none) 1 fun u => rfl).1),
    C3_load_trans_wait_protocol.2.2.2 1 2 7 (by omega) (by omega)⟩

/-- C6: in both fold-prediction writebacks — `fit_est`'s predict block and
`predict_fold_est` — every resolved held-out row index is decreased by
exactly `X.length - predRows` (the row surplus of the input over the
destination matrix) before being used as a row of `P`, and the prediction
values land at those shifted rows in the assigned column. -/
theorem C6_fold_writeback_rebase :
    (∀ (cn nm : String) (inst : PyEst) (X y : List Int) (predRows : Nat)
       (teiSpec : IdxSpec) (col : Nat) (b : Bool) (lim : Nat) (vs : List Int),
      inst.fitExc = false → inst.predictExc = false →
      (∀ i ∈ resolveIdx teiSpec, i < X.length ∧ i < y.length) →
      inst.pr ((resolveIdx teiSpec).map fun i => X.getD i 0) = .vec vs →
      vs.length = (resolveIdx teiSpec).length →
      (fit_est [] cn nm inst X y predRows none (some teiSpec) col b false lim none).2 =
        .ok (((resolveIdx teiSpec).zip vs).map fun iv =>
               ⟨(iv.1 : Int) - ((X.length : Int) - (predRows : Int)), col, iv.2⟩,
             [(cn ++ "__" ++ nm ++ "__e", .est nm (some inst) (some teiSpec, col) none)])) ∧
    (∀ (est : PyEst) (xtest : List Int) (predRows : Nat) (teiSpec : IdxSpec)
       (col : Nat) (vs : List Int),
      est.predictExc = false →
      (∀ i ∈ resolveIdx teiSpec, i < xtest.length) →
      est.pr ((resolveIdx teiSpec).map fun i => xtest.getD i 0) = .vec vs →
      vs.length = (resolveIdx teiSpec).length →
      predict_fold_est [] est xtest predRows (some teiSpec) col =
        ([], .ok (((resolveIdx teiSpec).zip vs).map fun iv =>
           ⟨(iv.1 : Int) - ((xtest.length : Int) - (predRows : Int)), col, iv.2⟩))) := by
  constructor
  · intro cn nm inst X y predRows teiSpec col b lim vs hfit hpx hin hpr hlen
    have hsx := sliceRows_eq_map X (resolveIdx teiSpec) fun i hi => (hin i hi).1
    have hsy := sliceRows_eq_map y (resolveIdx teiSpec) fun i hi => (hin i hi).2
    simp only [fit_est, _slice_array, hsx, hsy, transformChain, _fit_est, hfit,
      Bool.false_eq_true, if_false, _predict_est, hpx, hpr, Option.getD_some,
      writePred, hlen, if_pos rfl, writeVecAt, List.replicate, List.nil_append]
    simp
  · intro est xtest predRows teiSpec col vs hpx hin hpr hlen
    have hsx := sliceRows_eq_map xtest (resolveIdx teiSpec) hin
    simp only [predict_fold_est, _slice_array, hsx, transformChain, _predict_est,
      hpx, Bool.false_eq_true, if_false, hpr, writePred, hlen, if_pos rfl,
      writeVecAt]
    simp

/-- C6 witness: `X` has 4 rows, `P` has 2, the fold's held-out rows are
`[2, 3]`, so the predictions are written at rows `[0, 1]` of `P`. -/
theorem C6_fold_writeback_rebase_witness :
    (fit_est [] "c" "e0" ⟨false, false, fun _ => .vec [7, 8]⟩
      [10, 20, 30, 40] [1, 2, 3, 4] 2 none (some (.range 2 4)) 5 false false 1 none).2 =
      .ok ([⟨0, 5, 7⟩, ⟨1, 5, 8⟩],
           [("c__e0__e", .est "e0" (some ⟨false, false, fun _ => .vec [7, 8]⟩)
             (some (.range 2 4), 5) none)]) ∧
    predict_fold_est [] ⟨false, false, fun _ => .vec [7, 8]⟩
      [10, 20, 30, 40] 2 (some (.range 2 4)) 5 =
      ([], .ok [⟨0, 5, 7⟩, ⟨1, 5, 8⟩]) := by
  constructor
  · exact (C6_fold_writeback_rebase.1 "c" "e0" ⟨false, false, fun _ => .vec [7, 8]⟩
      [10, 20, 30, 40] [1, 2, 3, 4] 2 (.range 2 4) 5 false 1 [7, 8]
      rfl rfl (by decide) rfl rfl)
  · exact (C6_fold_writeback_rebase.2 ⟨false, false, fun _ => .vec [7, 8]⟩
      [10, 20, 30, 40] 2 (.range 2 4) 5 [7, 8] rfl (by decide) rfl rfl)

/-- The fitted step list produced by `fit_trans`'s loop carries the
instance names in their original order. -/
theorem fitTransLoop_names (y : Option (List Int)) (multi : Bool) :
    ∀ (inst : List (String × PyTr)) (x : List Int) (out : List (String × PyTr)),
      fitTransLoop x y multi inst = .ok out →
      out.map Prod.fst = inst.map Prod.fst := by
  intro inst
  induction inst with
  | nil =>
    intro x out h
    simp only [fitTransLoop] at h
    cases h
    rfl
  | cons p rest ih =>
    intro x out h
    obtain ⟨nm, tr⟩ := p
    simp only [fitTransLoop] at h
    split at h
    · cases h
    · split at h
      · split at h
        · cases h
        · split at h
          · cases h
          · cases h
            simp only [List.map_cons, List.cons.injEq]
            exact ⟨trivial, ih _ _ (by assumption)⟩
      · split at h
        · cases h
        · cases h
          simp only [List.map_cons, List.cons.injEq]
          exact ⟨trivial, ih _ _ (by assumption)⟩

/-- C8: cache keys and payload shapes.  (a) A successful `fit_trans` task
saves exactly one entry, keyed `case + "__t"`, whose payload lists the
fitted steps under the original instance names in order.  (b) A
successful `fit_est` task saves exactly one entry, keyed
`case + "__" + inst_name + "__e"`, whose payload is the tuple
`(inst_name, fitted_or_none, fold_index_info, score_or_none)`.  (c)/(d)
`_assemble` reads estimator and transformer artifacts back under those
same keys. -/
theorem C8_cache_key_scheme :
    (∀ (cn : String) (inst : List (String × PyTr)) (X y : List Int)
       (idx : Option IdxSpec) (saves : List (String × CacheVal)),
      fit_trans cn inst X y idx = .ok saves →
      ∃ steps, saves = [(cn ++ "__t", .trans steps)] ∧
        steps.map Prod.fst = inst.map Prod.fst) ∧
    (∀ (cache : Cache) (cn nm : String) (inst : PyEst) (X y : List Int)
       (pr : Nat) (tri tei : Option IdxSpec) (col : Nat) (b prep : Bool)
       (lim : Nat) (sc : Option (List Int → Pred → Option ℚ))
       (ws : List MWrite) (saves : List (String × CacheVal)),
      (fit_est cache cn nm inst X y pr tri tei col b prep lim sc).2 =
        .ok (ws, saves) →
      ∃ est idxInfo s, saves = [(cn ++ "__" ++ nm ++ "__e", .est nm est idxInfo s)]) ∧
    (∀ (cn nm : String) (est : Option PyEst) (idxInfo : Option IdxSpec × Nat)
       (s : Option ℚ) (tri tei : Option IdxSpec) (inst : PyEst),
      assembleE [(cn ++ "__" ++ nm ++ "__e", .est nm est idxInfo s)]
        [(cn, tri, tei, [(nm, inst)])] =
        .ok ([(cn, nm, est, idxInfo)], [(cn ++ "___" ++ nm, s)])) ∧
    (∀ (cn : String) (steps : List (String × PyTr)) (tri tei : Option IdxSpec)
       (instl : List (String × PyTr)),
      assembleT [(cn ++ "__t", .trans steps)] (some [(cn, tri, tei, instl)]) =
        .ok (some [(cn, steps)])) := by
  refine ⟨?_, ?_, ?_, ?_⟩
  · intro cn inst X y idx saves h
    simp only [fit_trans] at h
    split at h
    · cases h
    · split at h
      · cases h
      · cases h
        exact ⟨_, rfl, fitTransLoop_names _ _ inst _ _ (by assumption)⟩
  · intro cache cn nm inst X y pr tri tei col b prep lim sc ws saves h
    simp only [fit_est] at h
    repeat' split at h
    all_goals simp_all
    all_goals exact ⟨_, _, _, _, h.2.symm⟩
  · intro cn nm est idxInfo s tri tei inst
    simp only [assembleE, assembleECase, cacheGet, List.map_cons, List.map_nil,
      if_pos rfl]
    rfl
  · intro cn steps tri tei instl
    simp [assembleT, assembleTList, cacheGet]

/-- C8 witness: a concrete one-case, one-transformer, one-estimator run
through all four parts. -/
theorem C8_cache_key_scheme_witness :
    (∃ steps, [("c__t", CacheVal.trans [("t0", okTr)])] =
        [("c" ++ "__t", CacheVal.trans steps)] ∧
      steps.map Prod.fst = [("t0", okTr)].map Prod.fst) ∧
    (∃ est idxInfo s,
      [("c__e0__e", CacheVal.est "e0" (some badPredEst) (none, 3) none)] =
        [("c" ++ "__" ++ "e0" ++ "__e", CacheVal.est "e0" est idxInfo s)]) ∧
    assembleE [("c" ++ "__" ++ "e0" ++ "__e",
        CacheVal.est "e0" (some badPredEst) (none, 3) none)]
      [("c", none, none, [("e0", badPredEst)])] =
      .ok ([("c", "e0", some badPredEst, (none, 3))], [("c" ++ "___" ++ "e0", none)]) ∧
    assembleT [("c" ++ "__t", CacheVal.trans [("t0", okTr)])]
      (some [("c", none, none, [("t0", okTr)])]) = .ok (some [("c", [("t0", okTr)])]) := by
  refine ⟨?_, ?_, ?_, ?_⟩
  · exact C8_cache_key_scheme.1 "c" [("t0", okTr)] [1, 2] [3, 4] none
      [("c__t", CacheVal.trans [("t0", okTr)])] rfl
  · exact C8_cache_key_scheme.2.1 [] "c" "e0" badPredEst [1, 2] [3, 4] 2
      none none 3 true false 1 none [] _ rfl
  · exact C8_cache_key_scheme.2.2.1 "c" "e0" (some badPredEst) (none, 3) none
      none none badPredEst
  · exact C8_cache_key_scheme.2.2.2 "c" [("t0", okTr)] none none [("t0", okTr)]

/-- C9 counterexample: one root entry `"c___e"` and two fold entries for
the same instance whose scores are all `None`.  Under the non-raising
policy the reduction failure warns — but the resulting score table still
**contains** an entry for the instance (`"c__e"` mapped to `None`),
contradicting the claim that the table contains no entry for it. -/
theorem C9_counterexample :
    _build_scores 1 false
        [("c___e", some (4 / 5 : ℚ)), ("c__1___e__1", none), ("c__2___e__2", none)] =
      ([.parallelProcessingW], .ok [("c__e", none)]) := by
  rfl

/-- C9 amended: when a group's `(mean, std)` reduction fails, the
behaviour follows the raise-on-exception policy — `ParallelProcessingError`
when it is set, a `ParallelProcessingWarning` otherwise — but in the
non-raising case the score table **keeps an entry for that instance with
value `None`** (rather than containing no entry): non-raising aggregation
always succeeds and yields `(k, None)` for the failing group, while a
raising aggregation errors as soon as any group fails. -/
theorem C9_score_reduction_failure_amended :
    (∀ (v : List (Option ℚ)), v.any (fun q => q.isNone) = true →
      _mean_score v true = ([], .error .parallelProcessing) ∧
      _mean_score v false = ([.parallelProcessingW], .ok none)) ∧
    (∀ (d : List (String × List (Option ℚ))) (k : String) (v : List (Option ℚ)),
      (k, v) ∈ d → v.any (fun q => q.isNone) = true →
      ∃ tbl, (aggScores false d).2 = .ok tbl ∧ (k, none) ∈ tbl) ∧
    (∀ (d : List (String × List (Option ℚ))) (k : String) (v : List (Option ℚ)),
      (k, v) ∈ d → v.any (fun q => q.isNone) = true →
      (aggScores true d).2 = .error .parallelProcessing) := by
  have hok : ∀ (d : List (String × List (Option ℚ))),
      ∃ tbl, (aggScores false d).2 = .ok tbl ∧
        ∀ (k : String) (v : List (Option ℚ)), (k, v) ∈ d →
          v.any (fun q => q.isNone) = true → (k, none) ∈ tbl := by
    intro d
    induction d with
    | nil => exact ⟨[], rfl, by intro k v hm; cases hm⟩
    | cons kv rest ih =>
      obtain ⟨tbl, htbl, hmem⟩ := ih
      by_cases h : (kv.2.any fun q => q.isNone) = true
      · refine ⟨(kv.1, none) :: tbl, ?_, ?_⟩
        · simp only [aggScores, _mean_score, h, if_true, Bool.false_eq_true, if_false]
          rw [htbl]
        · intro k v hm hv
          rcases List.mem_cons.mp hm with heq | hm2
          · cases heq
            exact List.mem_cons_self _ _
          · exact List.mem_cons_of_mem _ (hmem k v hm2 hv)
      · simp only [Bool.not_eq_true] at h
        refine ⟨(kv.1, some (listMean (kv.2.filterMap id), listVar (kv.2.filterMap id))) :: tbl,
          ?_, ?_⟩
        · simp only [aggScores, _mean_score, h, Bool.false_eq_true, if_false]
          rw [htbl]
        · intro k v hm hv
          rcases List.mem_cons.mp hm with heq | hm2
          · cases heq
            rw [hv] at h
            cases h
          · exact List.mem_cons_of_mem _ (hmem k v hm2 hv)
  refine ⟨fun v h => ?_, fun d k v hm hv => ?_, fun d k v hm hv => ?_⟩
  · constructor <;> simp [_mean_score, h]
  · obtain ⟨tbl, htbl, hmem⟩ := hok d
    exact ⟨tbl, htbl, hmem k v hm hv⟩
  · induction d with
    | nil => cases hm
    | cons kv rest ih =>
      rcases List.mem_cons.mp hm with heq | hmem
      · cases heq
        simp [aggScores, _mean_score, hv]
      · by_cases h : (kv.2.any fun q => q.isNone) = true
        · simp [aggScores, _mean_score, h]
        · simp only [Bool.not_eq_true] at h
          have hrest := ih hmem
          simp only [aggScores, _mean_score, h, Bool.false_eq_true, if_false]
          split
          · rename_i e heq
            rw [hrest] at heq
            cases heq
            rfl
          · rename_i tbl2 heq
            rw [hrest] at heq
            cases heq

/-- C9 witness: the amended behaviour at concrete inputs — a failing
group raises when the policy is set and otherwise yields a table entry
holding `None`. -/
theorem C9_score_reduction_failure_amended_witness :
    _mean_score [none, some (1 : ℚ)] true = ([], .error .parallelProcessing) ∧
    _mean_score [none, some (1 : ℚ)] false = ([.parallelProcessingW], .ok none) ∧
    (∃ tbl, (aggScores false [("a", [some (1 : ℚ)]), ("b", [none])]).2 = .ok tbl ∧
      ("b", (none : Option (ℚ × ℚ))) ∈ tbl) ∧
    (aggScores true [("a", [some (1 : ℚ)]), ("b", [none])]).2 =
      .error .parallelProcessing := by
  refine ⟨(C9_score_reduction_failure_amended.1 [none, some 1] rfl).1,
    (C9_score_reduction_failure_amended.1 [none, some 1] rfl).2, ?_, ?_⟩
  · exact C9_score_reduction_failure_amended.2.1 [("a", [some (1 : ℚ)]), ("b", [none])]
      "b" [none] (by simp) rfl
  · exact C9_score_reduction_failure_amended.2.2 [("a", [some (1 : ℚ)]), ("b", [none])]
      "b" [none] (by simp) rfl

/-- C1: the claim (a fit with `raise_on_exception=False` and one failing
estimator completes, drops the instance from `estimators_`, and warns)
does not hold on this code.  A `FitFailedWarning` **is** emitted, but:
(i) when the failing instance has a held-out fold, `_fit_est` returns
`None`, `_predict_est` then warns and returns `None`, and `len(p.shape)`
on that `None` raises an uncaught `AttributeError`, so the whole `fit`
call raises instead of completing; (ii) when the failing instance is a
full-data fit, `fit` completes but the instance is **kept** in the
assembled `estimators_` with a `None` fitted object — it is not dropped. -/
theorem C1_nonraising_fit_drop_code_bug :
    (fitLayer specFold [10, 20, 30, 40] [1, 2, 3, 4] 4).2 = .error .attributeError ∧
    (fitLayer specFold [10, 20, 30, 40] [1, 2, 3, 4] 4).1 =
      [.fitFailedW, .predictFailedW] ∧
    ((okPart (fitLayer specFull [10, 20, 30, 40] [1, 2, 3, 4] 4).2).map fun o =>
        o.estimators_.map fun r => (r.1, r.2.1, (r.2.2.1).isSome)) =
      some [("c", "bad", false)] ∧
    (fitLayer specFull [10, 20, 30, 40] [1, 2, 3, 4] 4).1 = [.fitFailedW] := by
  exact ⟨rfl, rfl, rfl, rfl⟩

/-- C2: the claim (under `raise_on_exception=False` a failing predict
warns and the column region is left zero-filled) does not hold on this
code.  In `fit_est` the non-raising `_predict_est` emits the
`PredictFailedWarning` and returns `None`, and the very next source line
`len(p.shape)` raises an uncaught `AttributeError`: the task crashes and
no write (zero or otherwise) is performed. -/
theorem C2_nonraising_predict_zero_code_bug :
    fit_est [] "c" "e1" badPredEst [10, 20, 30, 40] [1, 2, 3, 4] 4
        none (some (.range 0 2)) 0 false false 1 none =
      ([.predictFailedW], .error .attributeError) := by
  rfl

end MLens
